import Mathlib

/-!
Shallow embedding of the ingress-operator reconciliation controller
(pkg/operator/controller/controller.go) and proofs about it.

The controller's collaborators (object store gets/updates, the cache list,
and the dependent-resource sub-ensurers defined outside this file's source)
are modelled as oracle outcomes supplied in environment structures: each
fallible collaborator call is represented by the outcome it returns in the
pass under consideration.  Each embedded function returns the value the Go
function computes plus a record of the writes it issued against the primary
resource; the top-level `Reconcile` additionally returns the ordered trace
of steps it invoked and the list of errors it collected.
-/

namespace IngressCtl

/-- EndpointPublishingStrategy: only its Type field is used by this controller. -/
structure EndpointPublishingStrategy where
  type : String
deriving DecidableEq, Repr

def LoadBalancerServiceStrategyType : String := "LoadBalancerService"

def HostNetworkStrategyType : String := "HostNetwork"

/-- OperatorCondition with the fields the controller reads and writes. -/
structure OperatorCondition where
  type : String
  status : String
  reason : String
  message : String
  lastTransitionTime : Nat
deriving DecidableEq, Repr

def IngressControllerAvailableConditionType : String := "Available"

def ConditionFalse : String := "False"

/-- Spec of an IngressController: the fields consumed by the controller. -/
structure IngressControllerSpec where
  domain : String
  endpointPublishingStrategy : Option EndpointPublishingStrategy
deriving DecidableEq, Repr

/-- Status of an IngressController: the fields consumed by the controller. -/
structure IngressControllerStatus where
  domain : String
  endpointPublishingStrategy : Option EndpointPublishingStrategy
  conditions : List OperatorCondition
deriving DecidableEq, Repr

/-- The primary resource. `deletionTimestamp` is `some t` when the object is
terminating; `finalizers` is the list of finalizer tokens on its metadata. -/
structure IngressController where
  name : String
  nspace : String
  spec : IngressControllerSpec
  status : IngressControllerStatus
  finalizers : List String
  deletionTimestamp : Option Nat
deriving DecidableEq, Repr

def IngressControllerFinalizer : String :=
  "ingresscontroller.operator.openshift.io/finalizer-ingresscontroller"

/-- Cluster ingress config: only Spec.Domain is consumed. -/
structure IngressConfig where
  specDomain : String
deriving DecidableEq, Repr

/-- Cluster infrastructure config: only Status.Platform is consumed. -/
structure Infrastructure where
  statusPlatform : String
deriving DecidableEq, Repr

def AWSPlatformType : String := "AWS"

def AzurePlatformType : String := "Azure"

def GCPPlatformType : String := "GCP"

def LibvirtPlatformType : String := "Libvirt"

/-- Modelled from the spec: slice.ContainsString from pkg/util/slice (not under
src/): membership test of a string in a list of strings. -/
def containsString (slice : List String) (s : String) : Bool :=
  slice.contains s

/-- Modelled from the spec: slice.RemoveString from pkg/util/slice (not under
src/): removes every occurrence of the given string from the list. -/
def removeString (slice : List String) (s : String) : List String :=
  slice.filter (fun item => item ≠ s)

/-- IsStatusDomainSet checks whether status.domain of ingress is set. -/
def IsStatusDomainSet (ingress : IngressController) : Bool :=
  if ingress.status.domain.length == 0 then false else true

/-- isDomainUnique compares domain with Status.Domain of all ingress
controllers listed from the cache in the operator namespace.  The oracle
`listResult` is the outcome of the cache List call: `none` models a list
error (the Go function then returns an error); `some items` is the listed
collection.  Returns `some false` on a conflict, `some true` otherwise. -/
def isDomainUnique (listResult : Option (List IngressController))
    (domain : String) : Option Bool :=
  match listResult with
  | none => none
  | some ingresses =>
      if ingresses.any (fun ing => domain == ing.status.domain) then
        some false
      else
        some true

/-- Modelled from the spec: getIngressAvailableCondition (not under src/)
returns the condition of type Available from the list, if present. -/
def getIngressAvailableCondition (conditions : List OperatorCondition) :
    Option OperatorCondition :=
  conditions.find? (fun c => c.type == IngressControllerAvailableConditionType)

/-- Modelled from the spec: setIngressLastTransitionTime (not under src/)
preserves the old condition's LastTransitionTime when the condition's Status
value is unchanged from before, and otherwise stamps the current time. -/
def setIngressLastTransitionTime (now : Nat) (cond : OperatorCondition)
    (old : Option OperatorCondition) : OperatorCondition :=
  match old with
  | some o =>
      if o.status == cond.status then
        { cond with lastTransitionTime := o.lastTransitionTime }
      else
        { cond with lastTransitionTime := now }
  | none => { cond with lastTransitionTime := now }

/-- Oracle outcomes for the collaborator calls made by
enforceEffectiveIngressDomain: the cache List backing isDomainUnique, the
status Update, and the refresh Get that follows a successful update. -/
structure DomainEnv where
  listResult : Option (List IngressController)
  updateOk : Bool
  refreshOk : Bool
deriving Repr

/-- Result of one of the two status enforcers: `ok` is true when the Go
function returns nil; `statusWrite` is the object passed to Status().Update
when that call was issued; `icAfter` is the in-memory primary resource after
the call (refreshed from the store after a successful update). -/
structure EnforceOutcome where
  ok : Bool
  statusWrite : Option IngressController
  icAfter : IngressController
deriving Repr

/-- enforceEffectiveIngressDomain determines the effective ingress domain for
the given ingresscontroller and ingress configuration and publishes it to
the ingresscontroller's status.  A no-op returning success if Status.Domain
is already set.  On a successful update the refresh Get is modelled as
returning the written object (per-key serialized execution). -/
def enforceEffectiveIngressDomain (env : DomainEnv) (now : Nat)
    (ic : IngressController) (ingressConfig : IngressConfig) : EnforceOutcome :=
  if 0 < ic.status.domain.length then
    { ok := true, statusWrite := none, icAfter := ic }
  else
    let domain :=
      if 0 < ic.spec.domain.length then ic.spec.domain
      else ingressConfig.specDomain
    match isDomainUnique env.listResult domain with
    | none => { ok := false, statusWrite := none, icAfter := ic }
    | some unique =>
        let updated :=
          if unique then
            { ic with status := { ic.status with domain := domain } }
          else
            let availableCondition : OperatorCondition :=
              { type := IngressControllerAvailableConditionType
                status := ConditionFalse
                reason := "InvalidDomain"
                message := "domain " ++ domain ++
                  " is already in use by another IngressController"
                lastTransitionTime := now }
            let oldAvailableCondition :=
              getIngressAvailableCondition ic.status.conditions
            let availableCondition :=
              setIngressLastTransitionTime now availableCondition
                oldAvailableCondition
            { ic with status := { ic.status with conditions := [availableCondition] } }
        if env.updateOk then
          if env.refreshOk then
            { ok := true, statusWrite := some updated, icAfter := updated }
          else
            { ok := false, statusWrite := some updated, icAfter := ic }
        else
          { ok := false, statusWrite := some updated, icAfter := ic }

/-- publishingStrategyTypeForInfra returns the appropriate endpoint publishing
strategy type for the given infrastructure config. -/
def publishingStrategyTypeForInfra (infraConfig : Infrastructure) : String :=
  if infraConfig.statusPlatform == AWSPlatformType
      || infraConfig.statusPlatform == AzurePlatformType
      || infraConfig.statusPlatform == GCPPlatformType then
    LoadBalancerServiceStrategyType
  else if infraConfig.statusPlatform == LibvirtPlatformType then
    HostNetworkStrategyType
  else
    HostNetworkStrategyType

/-- Oracle outcomes for the collaborator calls made by
enforceEffectiveEndpointPublishingStrategy: the status Update and the
refresh Get. -/
structure StrategyEnv where
  updateOk : Bool
  refreshOk : Bool
deriving Repr

/-- enforceEffectiveEndpointPublishingStrategy uses the infrastructure config
to determine the appropriate endpoint publishing strategy configuration for
the given ingresscontroller and publishes it to the ingresscontroller's
status.  A no-op returning success if Status.EndpointPublishingStrategy is
already set. -/
def enforceEffectiveEndpointPublishingStrategy (env : StrategyEnv)
    (ci : IngressController) (infraConfig : Infrastructure) : EnforceOutcome :=
  match ci.status.endpointPublishingStrategy with
  | some _ => { ok := true, statusWrite := none, icAfter := ci }
  | none =>
      let updated :=
        match ci.spec.endpointPublishingStrategy with
        | some s =>
            { ci with status := { ci.status with endpointPublishingStrategy := some s } }
        | none =>
            let strategy : EndpointPublishingStrategy :=
              { type := publishingStrategyTypeForInfra infraConfig }
            { ci with status :=
                { ci.status with endpointPublishingStrategy := some strategy } }
      if env.updateOk then
        if env.refreshOk then
          { ok := true, statusWrite := some updated, icAfter := updated }
        else
          { ok := false, statusWrite := some updated, icAfter := ci }
      else
        { ok := false, statusWrite := some updated, icAfter := ci }

/-- Oracle outcome for the full-object Update call made by
enforceIngressFinalizer. -/
structure FinalizerEnv where
  updateOk : Bool
deriving Repr

/-- Result of enforceIngressFinalizer: `ok` is true when the Go function
returns nil; `write` is the full-object update it issued, when it issued
one; `icAfter` is the in-memory primary resource afterwards (the Go code
appends to ingress.Finalizers in place before calling Update). -/
structure FinalizerOutcome where
  ok : Bool
  write : Option IngressController
  icAfter : IngressController
deriving Repr

/-- enforceIngressFinalizer adds IngressControllerFinalizer to ingress if it
does not exist. -/
def enforceIngressFinalizer (env : FinalizerEnv)
    (ingress : IngressController) : FinalizerOutcome :=
  if containsString ingress.finalizers IngressControllerFinalizer then
    { ok := true, write := none, icAfter := ingress }
  else
    let updatedIngress :=
      { ingress with finalizers := ingress.finalizers ++ [IngressControllerFinalizer] }
    { ok := env.updateOk, write := some updatedIngress, icAfter := updatedIngress }

/-- Oracle outcomes for the collaborator calls made by ensureIngressDeleted:
finalizeLoadBalancerService, ensureRouterDeleted (both defined outside this
file's source), and the Update that removes the finalizer. -/
structure DeleteEnv where
  finalizeLBOk : Bool
  routerDeleteOk : Bool
  updateOk : Bool
deriving Repr

/-- Result of ensureIngressDeleted: `ok` is true when the Go function returns
nil; `finalizerWrite` is the finalizer-removal update it issued, when it
issued one. -/
structure DeleteOutcome where
  ok : Bool
  finalizerWrite : Option IngressController
deriving Repr

/-- ensureIngressDeleted tries to delete ingress, and if successful, will
remove the finalizer: it first finalizes the load balancer service, then
deletes the router deployment, and only then removes the finalizer token
(if present) and persists that update; a failure in any step returns an
error immediately. -/
def ensureIngressDeleted (env : DeleteEnv)
    (ingress : IngressController) : DeleteOutcome :=
  if env.finalizeLBOk then
    if env.routerDeleteOk then
      if containsString ingress.finalizers IngressControllerFinalizer then
        let updated :=
          { ingress with finalizers := removeString ingress.finalizers IngressControllerFinalizer }
        { ok := env.updateOk, finalizerWrite := some updated }
      else
        { ok := true, finalizerWrite := none }
    else
      { ok := false, finalizerWrite := none }
  else
    { ok := false, finalizerWrite := none }

/-- Outcome of the Get for one scaffolding object: found, not found, or any
other error. -/
inductive GetRes where
  | found
  | notFound
  | otherErr
deriving DecidableEq, Repr

/-- Oracle outcomes for one get-or-create ensure of a scaffolding object. -/
structure EnsureObjEnv where
  getRes : GetRes
  createOk : Bool
deriving Repr

/-- One get-or-create step of ensureRouterNamespace: success when the Get
finds the object, or when it reports not-found and the Create succeeds. -/
def ensureObject (env : EnsureObjEnv) : Bool :=
  match env.getRes with
  | GetRes.found => true
  | GetRes.otherErr => false
  | GetRes.notFound => env.createOk

/-- Oracle outcomes for the four scaffolding objects ensured by
ensureRouterNamespace: cluster role, namespace, service account, cluster
role binding. -/
structure RouterNamespaceEnv where
  clusterRole : EnsureObjEnv
  routerNs : EnsureObjEnv
  serviceAccount : EnsureObjEnv
  clusterRoleBinding : EnsureObjEnv
deriving Repr

/-- ensureRouterNamespace ensures all the necessary scaffolding exists for
routers generally: cluster role, namespace, service account, cluster role
binding, in that order, returning an error on the first failure. -/
def ensureRouterNamespace (env : RouterNamespaceEnv) : Bool :=
  if ensureObject env.clusterRole then
    if ensureObject env.routerNs then
      if ensureObject env.serviceAccount then
        ensureObject env.clusterRoleBinding
      else false
    else false
  else false

/-- The steps the reconciler can invoke, recorded in invocation order. -/
inductive Step where
  | getPrimary
  | getDNS
  | getInfra
  | getIngressConfig
  | ensureRouterNamespace
  | enforceDomain
  | enforceStrategy
  | ensureIngressDeleted
  | enforceIngressFinalizer
  | ensureIngressController
  | ensureRouterDeployment
  | ensureLoadBalancerService
  | ensureDNS
  | ensureInternalService
  | ensureMetricsIntegration
  | listEvents
  | syncIngressControllerStatus
  | syncOperatorStatus
deriving DecidableEq, Repr

/-- The error values the reconciler can collect, one per failing call site. -/
inductive RErr where
  | getIngress
  | getDNS
  | getInfra
  | getIngressConfig
  | ensureRouterNamespace
  | enforceDomain
  | enforceStrategy
  | ensureIngressDeleted
  | enforceIngressFinalizer
  | ensureIngressController
  | ensureRouterDeployment
  | ensureLoadBalancerService
  | ensureDNS
  | ensureInternalService
  | ensureMetricsIntegration
  | listEvents
  | syncIngressControllerStatus
  | syncOperatorStatus
deriving DecidableEq, Repr

/-- Oracle outcomes for the sub-ensurers invoked by ensureIngressController
(all defined outside this file's source).  `lbRes` is the outcome of
ensureLoadBalancerService: `none` models an error, `some b` success with
`b` true exactly when a (non-nil) load balancer service was returned. -/
structure EnsureICEnv where
  deploymentOk : Bool
  lbRes : Option Bool
  dnsOk : Bool
  internalSvcOk : Bool
  metricsOk : Bool
  eventsListOk : Bool
  syncStatusOk : Bool
deriving Repr

/-- ensureIngressController ensures all necessary router resources exist for
a given ingresscontroller: the router deployment first, and if that
succeeded: the load balancer service (DNS only if a service was returned),
the internal service (metrics integration only if it succeeded), the
operand event list, and the ingresscontroller status sync, aggregating the
errors of all of these.  Returns the collected errors and the trace of
sub-steps invoked. -/
def ensureIngressController (env : EnsureICEnv) : List RErr × List Step :=
  if env.deploymentOk then
    let lbErrs : List RErr :=
      match env.lbRes with
      | none => [RErr.ensureLoadBalancerService]
      | some true => if env.dnsOk then [] else [RErr.ensureDNS]
      | some false => []
    let lbSteps : List Step :=
      match env.lbRes with
      | some true => [Step.ensureLoadBalancerService, Step.ensureDNS]
      | _ => [Step.ensureLoadBalancerService]
    let svcErrs : List RErr :=
      if env.internalSvcOk then
        if env.metricsOk then [] else [RErr.ensureMetricsIntegration]
      else [RErr.ensureInternalService]
    let svcSteps : List Step :=
      if env.internalSvcOk then
        [Step.ensureInternalService, Step.ensureMetricsIntegration]
      else [Step.ensureInternalService]
    let evErrs : List RErr :=
      if env.eventsListOk then [] else [RErr.listEvents]
    let syncErrs : List RErr :=
      if env.syncStatusOk then [] else [RErr.syncIngressControllerStatus]
    (lbErrs ++ svcErrs ++ evErrs ++ syncErrs,
      [Step.ensureRouterDeployment] ++ lbSteps ++ svcSteps ++
        [Step.listEvents, Step.syncIngressControllerStatus])
  else
    ([RErr.ensureRouterDeployment], [Step.ensureRouterDeployment])

/-- Outcome of the Get of the primary resource. -/
inductive GetPrimaryRes where
  | found (ic : IngressController)
  | notFound
  | otherErr
deriving DecidableEq, Repr

/-- All oracle outcomes for one reconciliation pass.  The three cluster
config fetches return `none` on error and the fetched config on success. -/
structure ReconcileEnv where
  getPrimary : GetPrimaryRes
  dnsConfig : Option Unit
  infraConfig : Option Infrastructure
  ingressConfig : Option IngressConfig
  routerNamespaceEnv : RouterNamespaceEnv
  domainEnv : DomainEnv
  now : Nat
  strategyEnv : StrategyEnv
  deleteEnv : DeleteEnv
  finalizerEnv : FinalizerEnv
  ensureICEnv : EnsureICEnv
  syncOperatorStatusOk : Bool
deriving Repr

/-- The controller-runtime result value returned by Reconcile. -/
structure ReconcileResult where
  requeue : Bool
  requeueAfter : Nat
deriving DecidableEq, Repr

/-- Outcome of one reconciliation pass: the result value, the collected
errors (the aggregate error is nil exactly when this list is empty), the
ordered trace of invoked steps, and the updates issued against the primary
resource. -/
structure ReconcileOutcome where
  result : ReconcileResult
  errs : List RErr
  steps : List Step
  writes : List IngressController
deriving Repr

/-- The body of Reconcile up to (but excluding) the final operator status
sync: fetch the primary resource, fetch the three cluster configs, and run
the enforcement block when the primary was found and all three configs were
fetched.  Returns collected errors, invoked steps, and primary-resource
writes. -/
def reconcileCore (env : ReconcileEnv) :
    List RErr × List Step × List IngressController :=
  match env.getPrimary with
  | GetPrimaryRes.notFound => ([], [Step.getPrimary], [])
  | GetPrimaryRes.otherErr => ([RErr.getIngress], [Step.getPrimary], [])
  | GetPrimaryRes.found ingress =>
      let cfgSteps :=
        [Step.getPrimary, Step.getDNS, Step.getInfra, Step.getIngressConfig]
      let cfgErrs : List RErr :=
        (if env.dnsConfig.isSome then [] else [RErr.getDNS]) ++
        (if env.infraConfig.isSome then [] else [RErr.getInfra]) ++
        (if env.ingressConfig.isSome then [] else [RErr.getIngressConfig])
      match env.dnsConfig, env.infraConfig, env.ingressConfig with
      | some _, some infraConfig, some ingressConfig =>
          let nsErrs : List RErr :=
            if ensureRouterNamespace env.routerNamespaceEnv then []
            else [RErr.ensureRouterNamespace]
          let dres :=
            enforceEffectiveIngressDomain env.domainEnv env.now ingress ingressConfig
          let base := cfgErrs ++ nsErrs
          let baseSteps :=
            cfgSteps ++ [Step.ensureRouterNamespace, Step.enforceDomain]
          if dres.ok then
            if IsStatusDomainSet dres.icAfter then
              let sres :=
                enforceEffectiveEndpointPublishingStrategy env.strategyEnv
                  dres.icAfter infraConfig
              let writes2 := dres.statusWrite.toList ++ sres.statusWrite.toList
              let steps2 := baseSteps ++ [Step.enforceStrategy]
              if sres.ok then
                match sres.icAfter.deletionTimestamp with
                | some _ =>
                    let del := ensureIngressDeleted env.deleteEnv sres.icAfter
                    (base ++ (if del.ok then [] else [RErr.ensureIngressDeleted]),
                      steps2 ++ [Step.ensureIngressDeleted],
                      writes2 ++ del.finalizerWrite.toList)
                | none =>
                    let fin := enforceIngressFinalizer env.finalizerEnv sres.icAfter
                    if fin.ok then
                      let eres := ensureIngressController env.ensureICEnv
                      (base ++
                        (if eres.1.isEmpty then [] else [RErr.ensureIngressController]),
                        steps2 ++ [Step.enforceIngressFinalizer,
                          Step.ensureIngressController] ++ eres.2,
                        writes2 ++ fin.write.toList)
                    else
                      (base ++ [RErr.enforceIngressFinalizer],
                        steps2 ++ [Step.enforceIngressFinalizer],
                        writes2 ++ fin.write.toList)
              else
                (base ++ [RErr.enforceStrategy], steps2, writes2)
            else
              (base, baseSteps, dres.statusWrite.toList)
          else
            (base ++ [RErr.enforceDomain], baseSteps, dres.statusWrite.toList)
      | _, _, _ => (cfgErrs, cfgSteps, [])

/-- Reconcile expects request to refer to an ingresscontroller in the
operator namespace, and will do all the work to ensure the
ingresscontroller is in the desired state.  The operator status sync runs
at the end of every pass; the returned result value is the zero value. -/
def Reconcile (env : ReconcileEnv) : ReconcileOutcome :=
  let core := reconcileCore env
  let syncErrs : List RErr :=
    if env.syncOperatorStatusOk then [] else [RErr.syncOperatorStatus]
  { result := { requeue := false, requeueAfter := 0 }
    errs := core.1 ++ syncErrs
    steps := core.2.1 ++ [Step.syncOperatorStatus]
    writes := core.2.2 }

/-- A freshly created primary resource: nothing published yet. -/
def icBlank : IngressController :=
  { name := "edge"
    nspace := "openshift-ingress-operator"
    spec := { domain := "", endpointPublishingStrategy := none }
    status := { domain := "", endpointPublishingStrategy := none, conditions := [] }
    finalizers := []
    deletionTimestamp := none }

/-- A primary resource whose domain and strategy have been published. -/
def icPublished : IngressController :=
  { icBlank with
    status :=
      { domain := "apps.example.com"
        endpointPublishingStrategy := some { type := HostNetworkStrategyType }
        conditions := [] }
    finalizers := [IngressControllerFinalizer] }

/-- A published primary resource that is terminating. -/
def icTerminating : IngressController :=
  { icPublished with deletionTimestamp := some 9 }

/-- A second primary resource requesting the domain already held by
icPublished. -/
def icConflicting : IngressController :=
  { icBlank with
    name := "edge2"
    spec := { domain := "apps.example.com", endpointPublishingStrategy := none } }

/-- Scaffolding-object ensure outcome where the Get finds the object. -/
def ensureObjFound : EnsureObjEnv :=
  { getRes := GetRes.found, createOk := true }

/-- Router-namespace scaffolding outcomes where everything already exists. -/
def rnsEnvOk : RouterNamespaceEnv :=
  { clusterRole := ensureObjFound
    routerNs := ensureObjFound
    serviceAccount := ensureObjFound
    clusterRoleBinding := ensureObjFound }

/-- Domain-enforcer oracle with an empty sibling list and successful writes. -/
def domainEnvOk : DomainEnv :=
  { listResult := some [], updateOk := true, refreshOk := true }

/-- Strategy-enforcer oracle with successful writes. -/
def strategyEnvOk : StrategyEnv :=
  { updateOk := true, refreshOk := true }

/-- Deletion-sequencer oracle where every step succeeds. -/
def deleteEnvOk : DeleteEnv :=
  { finalizeLBOk := true, routerDeleteOk := true, updateOk := true }

/-- Finalizer-manager oracle where the update succeeds. -/
def finalizerEnvOk : FinalizerEnv :=
  { updateOk := true }

/-- Dependent-resource ensure oracle where every sub-step succeeds. -/
def ensureICEnvOk : EnsureICEnv :=
  { deploymentOk := true
    lbRes := some true
    dnsOk := true
    internalSvcOk := true
    metricsOk := true
    eventsListOk := true
    syncStatusOk := true }

/-- A reconciliation environment where every collaborator call succeeds,
parameterised by the outcome of the primary-resource fetch. -/
def envOk (gp : GetPrimaryRes) : ReconcileEnv :=
  { getPrimary := gp
    dnsConfig := some ()
    infraConfig := some { statusPlatform := AWSPlatformType }
    ingressConfig := some { specDomain := "apps.example.com" }
    routerNamespaceEnv := rnsEnvOk
    domainEnv := domainEnvOk
    now := 5
    strategyEnv := strategyEnvOk
    deleteEnv := deleteEnvOk
    finalizerEnv := finalizerEnvOk
    ensureICEnv := ensureICEnvOk
    syncOperatorStatusOk := true }

/-- An environment in which the infrastructure config fetch fails while the
primary resource is found. -/
def envInfraFail : ReconcileEnv :=
  { envOk (GetPrimaryRes.found icPublished) with infraConfig := none }

/-- An environment reconciling icConflicting while icPublished already holds
the requested domain. -/
def envConflict : ReconcileEnv :=
  { envOk (GetPrimaryRes.found icConflicting) with
    domainEnv := { domainEnvOk with listResult := some [icPublished, icConflicting] } }

/-- An ingress-defaults config with a concrete cluster domain. -/
def cfgExample : IngressConfig := { specDomain := "apps.example.com" }

/-- An infrastructure config on the AWS platform. -/
def infraAWS : Infrastructure := { statusPlatform := AWSPlatformType }

/-- icPublished without the finalizer token. -/
def icPubNoFin : IngressController := { icPublished with finalizers := [] }

/-- icPubNoFin after the finalizer manager appended the token. -/
def icFinAdded : IngressController :=
  { icPubNoFin with finalizers := icPubNoFin.finalizers ++ [IngressControllerFinalizer] }

/-- An existing Available=False condition with an earlier transition time. -/
def condOld : OperatorCondition :=
  { type := IngressControllerAvailableConditionType
    status := ConditionFalse
    reason := "InvalidDomain"
    message := "old"
    lastTransitionTime := 7 }

/-- icConflicting carrying an existing Available=False condition. -/
def icCondOld : IngressController :=
  { icConflicting with
    status := { icConflicting.status with conditions := [condOld] } }

/-- Domain-enforcer oracle whose cache list holds icPublished (so the domain
requested by icConflicting is taken). -/
def domainEnvConflict : DomainEnv :=
  { listResult := some [icPublished], updateOk := true, refreshOk := true }

/-- Deletion-sequencer oracle where load-balancer finalization fails. -/
def deleteEnvLBFail : DeleteEnv :=
  { finalizeLBOk := false, routerDeleteOk := true, updateOk := true }

/-- An environment in which the DNS config fetch fails while the primary
resource is found. -/
def envDnsFail : ReconcileEnv :=
  { envOk (GetPrimaryRes.found icBlank) with dnsConfig := none }

/-- A primary resource with only Status.Domain published (strategy not yet),
carrying the finalizer token. -/
def icDomOnly : IngressController :=
  { icBlank with
    status :=
      { domain := "apps.example.com"
        endpointPublishingStrategy := none
        conditions := [] }
    finalizers := [IngressControllerFinalizer] }

/-- icDomOnly after the strategy enforcer published the platform default. -/
def icDomOnlyEps : IngressController :=
  { icDomOnly with
    status := { icDomOnly.status with
      endpointPublishingStrategy := some { type := LoadBalancerServiceStrategyType } } }

/-- A primary resource with only Status.EndpointPublishingStrategy published
(domain not yet), carrying the finalizer token. -/
def icEpsOnly : IngressController :=
  { icBlank with
    status :=
      { domain := ""
        endpointPublishingStrategy := some { type := HostNetworkStrategyType }
        conditions := [] }
    finalizers := [IngressControllerFinalizer] }

/-- icEpsOnly after the domain enforcer published the cluster default domain. -/
def icEpsOnlyDom : IngressController :=
  { icEpsOnly with
    status := { icEpsOnly.status with domain := "apps.example.com" } }

lemma enforceDomain_noop (env : DomainEnv) (now : Nat) (ic : IngressController)
    (cfg : IngressConfig) (h : 0 < ic.status.domain.length) :
    enforceEffectiveIngressDomain env now ic cfg =
      { ok := true, statusWrite := none, icAfter := ic } := by
  unfold enforceEffectiveIngressDomain
  rw [if_pos h]

lemma enforceStrategy_noop (env : StrategyEnv) (ci : IngressController)
    (infra : Infrastructure) (h : ci.status.endpointPublishingStrategy.isSome) :
    enforceEffectiveEndpointPublishingStrategy env ci infra =
      { ok := true, statusWrite := none, icAfter := ci } := by
  unfold enforceEffectiveEndpointPublishingStrategy
  rcases hs : ci.status.endpointPublishingStrategy with _ | s
  · rw [hs] at h; simp at h
  · rfl

lemma enforceDomain_deletionTimestamp (env : DomainEnv) (now : Nat)
    (ic : IngressController) (cfg : IngressConfig) :
    (enforceEffectiveIngressDomain env now ic cfg).icAfter.deletionTimestamp =
      ic.deletionTimestamp := by
  unfold enforceEffectiveIngressDomain
  dsimp only
  repeat' split
  all_goals rfl

lemma enforceStrategy_deletionTimestamp (env : StrategyEnv)
    (ci : IngressController) (infra : Infrastructure) :
    (enforceEffectiveEndpointPublishingStrategy env ci infra).icAfter.deletionTimestamp =
      ci.deletionTimestamp := by
  unfold enforceEffectiveEndpointPublishingStrategy
  repeat' split
  all_goals rfl

lemma ensureIngressDeleted_write_status (env : DeleteEnv)
    (ing w : IngressController)
    (h : (ensureIngressDeleted env ing).finalizerWrite = some w) :
    w.status = ing.status := by
  unfold ensureIngressDeleted at h
  repeat' split at h
  all_goals simp_all
  subst h; rfl

lemma enforceIngressFinalizer_write_status (env : FinalizerEnv)
    (ing w : IngressController)
    (h : (enforceIngressFinalizer env ing).write = some w) :
    w.status = ing.status := by
  unfold enforceIngressFinalizer at h
  repeat' split at h
  all_goals simp_all
  subst h; rfl

lemma enforceStrategy_icAfter_status_domain (env : StrategyEnv)
    (ci : IngressController) (infra : Infrastructure) :
    (enforceEffectiveEndpointPublishingStrategy env ci infra).icAfter.status.domain =
      ci.status.domain := by
  unfold enforceEffectiveEndpointPublishingStrategy
  dsimp only
  repeat' split
  all_goals rfl

lemma enforceStrategy_statusWrite_domain (env : StrategyEnv)
    (ci : IngressController) (infra : Infrastructure) (w : IngressController)
    (h : (enforceEffectiveEndpointPublishingStrategy env ci infra).statusWrite =
      some w) :
    w.status.domain = ci.status.domain := by
  unfold enforceEffectiveEndpointPublishingStrategy at h
  dsimp only at h
  repeat' split at h
  all_goals simp_all
  all_goals (subst h; rfl)

lemma enforceDomain_icAfter_eps (env : DomainEnv) (now : Nat)
    (ic : IngressController) (cfg : IngressConfig) :
    (enforceEffectiveIngressDomain env now ic cfg).icAfter.status.endpointPublishingStrategy =
      ic.status.endpointPublishingStrategy := by
  unfold enforceEffectiveIngressDomain
  dsimp only
  repeat' split
  all_goals rfl

lemma enforceDomain_statusWrite_eps (env : DomainEnv) (now : Nat)
    (ic : IngressController) (cfg : IngressConfig) (w : IngressController)
    (h : (enforceEffectiveIngressDomain env now ic cfg).statusWrite = some w) :
    w.status.endpointPublishingStrategy = ic.status.endpointPublishingStrategy := by
  unfold enforceEffectiveIngressDomain at h
  dsimp only at h
  repeat' split at h
  all_goals simp_all
  all_goals (subst h; rfl)

lemma enforceDomain_conflict_icAfter (env : DomainEnv) (now : Nat)
    (ic : IngressController) (cfg : IngressConfig)
    (h0 : ic.status.domain = "")
    (hc : isDomainUnique env.listResult
      (if 0 < ic.spec.domain.length then ic.spec.domain else cfg.specDomain) =
        some false) :
    (enforceEffectiveIngressDomain env now ic cfg).icAfter.status.domain = "" := by
  unfold enforceEffectiveIngressDomain
  rw [if_neg (by simp [h0])]
  dsimp only
  rw [hc]
  dsimp only
  repeat' split
  all_goals first
  | exact h0
  | simp_all

/-- C6: in every Reconcile pass on a primary resource whose DeletionTimestamp
is non-nil, neither enforceIngressFinalizer nor ensureIngressController is
invoked; only the deletion path may run. -/
theorem deletion_exclusivity (env : ReconcileEnv) (ic : IngressController)
    (hgp : env.getPrimary = GetPrimaryRes.found ic)
    (hdt : ic.deletionTimestamp.isSome) :
    Step.enforceIngressFinalizer ∉ (Reconcile env).steps ∧
    Step.ensureIngressController ∉ (Reconcile env).steps := by
  unfold Reconcile reconcileCore
  rw [hgp]
  dsimp only
  rcases hdns : env.dnsConfig with _ | u <;>
    rcases hinf : env.infraConfig with _ | infra <;>
    rcases hicfg : env.ingressConfig with _ | cfg <;>
    dsimp only
  case some.some.some =>
    repeat' split
    all_goals first
    | (refine ⟨?_, ?_⟩ <;> simp <;> done)
    | (exfalso
       simp only [enforceStrategy_deletionTimestamp,
         enforceDomain_deletionTimestamp] at *
       simp_all
       done)
  all_goals refine ⟨?_, ?_⟩ <;> simp

lemma setIngressLastTransitionTime_fields (now : Nat) (cond : OperatorCondition)
    (old : Option OperatorCondition) :
    (setIngressLastTransitionTime now cond old).type = cond.type ∧
    (setIngressLastTransitionTime now cond old).status = cond.status ∧
    (setIngressLastTransitionTime now cond old).reason = cond.reason := by
  rcases old with _ | o
  · exact ⟨rfl, rfl, rfl⟩
  · simp only [setIngressLastTransitionTime]
    split <;> exact ⟨rfl, rfl, rfl⟩

lemma setIngressLastTransitionTime_carry (now : Nat) (cond : OperatorCondition)
    (o : OperatorCondition) (h : o.status = cond.status) :
    (setIngressLastTransitionTime now cond (some o)).lastTransitionTime =
      o.lastTransitionTime := by
  simp only [setIngressLastTransitionTime]
  rw [if_pos (by simp [h])]

/-- C10: Reconcile always returns the zero-valued result: no requeue flag and
no requeueAfter delay is ever requested, for every environment of
collaborator outcomes. -/
theorem reconcile_result_zero (env : ReconcileEnv) :
    (Reconcile env).result = { requeue := false, requeueAfter := 0 } := rfl

/-- C7: a not-found primary resource contributes no error and skips all
enforcement, proceeding only to the operator status sync; any other fetch
error for the primary resource is added to the combined error while the
pass still continues into status sync. -/
theorem primary_fetch_error_policy :
    (∀ env : ReconcileEnv, env.getPrimary = GetPrimaryRes.notFound →
      RErr.getIngress ∉ (Reconcile env).errs ∧
      (Reconcile env).steps = [Step.getPrimary, Step.syncOperatorStatus]) ∧
    (∀ env : ReconcileEnv, env.getPrimary = GetPrimaryRes.otherErr →
      RErr.getIngress ∈ (Reconcile env).errs ∧
      Step.syncOperatorStatus ∈ (Reconcile env).steps) := by
  constructor
  · intro env h
    unfold Reconcile reconcileCore
    rw [h]
    dsimp only
    constructor
    · cases hs : env.syncOperatorStatusOk <;> simp [hs]
    · simp
  · intro env h
    unfold Reconcile reconcileCore
    rw [h]
    dsimp only
    constructor
    · simp
    · simp

theorem primary_fetch_error_policy_witness :
    (RErr.getIngress ∉ (Reconcile (envOk GetPrimaryRes.notFound)).errs ∧
      (Reconcile (envOk GetPrimaryRes.notFound)).steps =
        [Step.getPrimary, Step.syncOperatorStatus]) ∧
    (RErr.getIngress ∈ (Reconcile (envOk GetPrimaryRes.otherErr)).errs ∧
      Step.syncOperatorStatus ∈ (Reconcile (envOk GetPrimaryRes.otherErr)).steps) :=
  ⟨primary_fetch_error_policy.1 (envOk GetPrimaryRes.notFound) rfl,
    primary_fetch_error_policy.2 (envOk GetPrimaryRes.otherErr) rfl⟩

/-- C2: in ensureIngressDeleted the finalizer-removal update is issued only
when both the load-balancer-service finalization step and the
deployment-deletion step succeeded in this pass; if either fails, the
function returns an error and no finalizer-removal update is issued. -/
theorem ensureIngressDeleted_finalizer_after_success (env : DeleteEnv)
    (ing : IngressController) :
    ((ensureIngressDeleted env ing).finalizerWrite.isSome →
      env.finalizeLBOk = true ∧ env.routerDeleteOk = true) ∧
    (¬ (env.finalizeLBOk = true ∧ env.routerDeleteOk = true) →
      (ensureIngressDeleted env ing).ok = false ∧
      (ensureIngressDeleted env ing).finalizerWrite = none) := by
  unfold ensureIngressDeleted
  rcases env with ⟨lb, rd, up⟩
  cases lb <;> cases rd <;> dsimp only <;> constructor
  all_goals intro h
  all_goals simp_all

theorem ensureIngressDeleted_finalizer_after_success_witness :
    ¬ (deleteEnvLBFail.finalizeLBOk = true ∧
        deleteEnvLBFail.routerDeleteOk = true) ∧
    (ensureIngressDeleted deleteEnvLBFail icTerminating).ok = false ∧
    (ensureIngressDeleted deleteEnvLBFail icTerminating).finalizerWrite = none :=
  ⟨by decide,
    (ensureIngressDeleted_finalizer_after_success deleteEnvLBFail icTerminating).2
      (by decide)⟩

/-- C3 counterexample: with an empty candidate domain and a sibling whose
Status.Domain is empty, isDomainUnique reports a conflict even though no
sibling's non-empty Status.Domain equals the candidate. -/
theorem isDomainUnique_empty_sibling_conflict :
    isDomainUnique (some [icBlank]) "" = some false ∧
    ¬ ∃ ing ∈ [icBlank],
      0 < ing.status.domain.length ∧ "" = ing.status.domain := by
  decide

/-- C3 amended: isDomainUnique reports "not unique" exactly when the
candidate domain equals some listed sibling's Status.Domain, whether or not
that sibling domain is empty; a list error propagates as an error. -/
theorem isDomainUnique_conflict_iff (items : List IngressController)
    (domain : String) :
    (isDomainUnique (some items) domain = some false ↔
      ∃ ing ∈ items, domain = ing.status.domain) ∧
    isDomainUnique none domain = none := by
  constructor
  · simp only [isDomainUnique]
    split_ifs with h
    · simp only [List.any_eq_true, beq_iff_eq] at h
      simp [h]
    · simp only [List.any_eq_true, beq_iff_eq] at h
      simp [h]
  · rfl

theorem deletion_exclusivity_witness :
    Step.enforceIngressFinalizer ∉
      (Reconcile (envOk (GetPrimaryRes.found icTerminating))).steps ∧
    Step.ensureIngressController ∉
      (Reconcile (envOk (GetPrimaryRes.found icTerminating))).steps :=
  deletion_exclusivity (envOk (GetPrimaryRes.found icTerminating)) icTerminating
    rfl (by decide)

/-- C4: when the uniqueness check reports a conflict and the status write and
refresh succeed, enforceEffectiveIngressDomain returns success, leaves
Status.Domain unset, and issues a status update whose Conditions list is
replaced by a single Available=False condition with Reason InvalidDomain,
carrying over the prior LastTransitionTime when the condition's Status
value is unchanged. -/
theorem enforceDomain_conflict_policy (env : DomainEnv) (now : Nat)
    (ic : IngressController) (cfg : IngressConfig)
    (h0 : ic.status.domain = "")
    (hc : isDomainUnique env.listResult
      (if 0 < ic.spec.domain.length then ic.spec.domain else cfg.specDomain) =
        some false)
    (hu : env.updateOk = true) (hr : env.refreshOk = true) :
    (enforceEffectiveIngressDomain env now ic cfg).ok = true ∧
    (enforceEffectiveIngressDomain env now ic cfg).icAfter.status.domain = "" ∧
    ∃ c : OperatorCondition,
      (enforceEffectiveIngressDomain env now ic cfg).statusWrite =
        some { ic with status := { ic.status with conditions := [c] } } ∧
      c.type = IngressControllerAvailableConditionType ∧
      c.status = ConditionFalse ∧
      c.reason = "InvalidDomain" ∧
      (∀ old : OperatorCondition,
        getIngressAvailableCondition ic.status.conditions = some old →
        old.status = ConditionFalse → c.lastTransitionTime = old.lastTransitionTime) := by
  unfold enforceEffectiveIngressDomain
  rw [if_neg (by simp [h0])]
  dsimp only
  rw [hc]
  dsimp only
  rw [if_neg Bool.false_ne_true, if_pos hu, if_pos hr]
  refine ⟨rfl, h0, ?_⟩
  refine ⟨_, rfl, ?_, ?_, ?_, ?_⟩
  · exact (setIngressLastTransitionTime_fields now _ _).1
  · exact (setIngressLastTransitionTime_fields now _ _).2.1
  · exact (setIngressLastTransitionTime_fields now _ _).2.2
  · intro old hold hstat
    rw [hold]
    exact setIngressLastTransitionTime_carry now _ old (by rw [hstat])

theorem enforceDomain_conflict_policy_witness :
    icCondOld.status.domain = "" ∧
    (enforceEffectiveIngressDomain domainEnvConflict 5 icCondOld cfgExample).ok = true ∧
    (enforceEffectiveIngressDomain domainEnvConflict 5 icCondOld
        cfgExample).icAfter.status.domain = "" := by
  have h := enforceDomain_conflict_policy domainEnvConflict 5 icCondOld cfgExample
    (by decide) (by decide) rfl rfl
  exact ⟨by decide, h.1, h.2.1⟩

/-- C1: once Status.Domain is non-empty, enforceEffectiveIngressDomain is a
no-op returning success without any write; once
Status.EndpointPublishingStrategy is non-nil,
enforceEffectiveEndpointPublishingStrategy is likewise a no-op; hence no
reconciliation pass issues a primary-resource write that changes either
field after it is first published, whatever Spec.Domain holds. -/
theorem writeOnce_enforcers_noop :
    (∀ (env : DomainEnv) (now : Nat) (ic : IngressController)
        (cfg : IngressConfig),
      0 < ic.status.domain.length →
      enforceEffectiveIngressDomain env now ic cfg =
        { ok := true, statusWrite := none, icAfter := ic }) ∧
    (∀ (env : StrategyEnv) (ci : IngressController) (infra : Infrastructure),
      ci.status.endpointPublishingStrategy.isSome →
      enforceEffectiveEndpointPublishingStrategy env ci infra =
        { ok := true, statusWrite := none, icAfter := ci }) ∧
    (∀ (env : ReconcileEnv) (ic : IngressController),
      env.getPrimary = GetPrimaryRes.found ic →
      0 < ic.status.domain.length →
      ∀ w ∈ (Reconcile env).writes, w.status.domain = ic.status.domain) ∧
    (∀ (env : ReconcileEnv) (ic : IngressController),
      env.getPrimary = GetPrimaryRes.found ic →
      ic.status.endpointPublishingStrategy.isSome →
      ∀ w ∈ (Reconcile env).writes,
        w.status.endpointPublishingStrategy =
          ic.status.endpointPublishingStrategy) := by
  refine ⟨enforceDomain_noop, enforceStrategy_noop, ?_, ?_⟩
  · intro env ic hgp hd w hw
    have hne : ic.status.domain.length ≠ 0 := Nat.pos_iff_ne_zero.mp hd
    have hset : IsStatusDomainSet ic = true := by
      simp [IsStatusDomainSet, hne]
    unfold Reconcile reconcileCore at hw
    rw [hgp] at hw
    dsimp only at hw
    rcases hdns : env.dnsConfig with _ | u <;> rw [hdns] at hw
    · simp at hw
    rcases hinf : env.infraConfig with _ | infra <;> rw [hinf] at hw
    · simp at hw
    rcases hicfg : env.ingressConfig with _ | cfg <;> rw [hicfg] at hw
    · simp at hw
    dsimp only at hw
    rw [enforceDomain_noop env.domainEnv env.now ic cfg hd] at hw
    dsimp only at hw
    rw [if_pos rfl, if_pos hset] at hw
    by_cases hsok :
        (enforceEffectiveEndpointPublishingStrategy env.strategyEnv ic infra).ok =
          true
    · rw [if_pos hsok] at hw
      cases hdt : (enforceEffectiveEndpointPublishingStrategy env.strategyEnv ic
          infra).icAfter.deletionTimestamp with
      | some t =>
          rw [hdt] at hw
          dsimp only at hw
          simp at hw
          rcases hw with hw | hw
          · exact enforceStrategy_statusWrite_domain env.strategyEnv ic infra w hw
          · have hst := ensureIngressDeleted_write_status env.deleteEnv _ w hw
            rw [hst]
            exact enforceStrategy_icAfter_status_domain env.strategyEnv ic infra
      | none =>
          rw [hdt] at hw
          dsimp only at hw
          split at hw
          all_goals simp at hw
          all_goals rcases hw with hw | hw
          all_goals first
          | exact enforceStrategy_statusWrite_domain env.strategyEnv ic infra w hw
          | (have hst := enforceIngressFinalizer_write_status env.finalizerEnv _ w hw
             rw [hst]
             exact enforceStrategy_icAfter_status_domain env.strategyEnv ic infra)
    · rw [if_neg hsok] at hw
      simp at hw
      exact enforceStrategy_statusWrite_domain env.strategyEnv ic infra w hw
  · intro env ic hgp hs w hw
    unfold Reconcile reconcileCore at hw
    rw [hgp] at hw
    dsimp only at hw
    rcases hdns : env.dnsConfig with _ | u <;> rw [hdns] at hw
    · simp at hw
    rcases hinf : env.infraConfig with _ | infra <;> rw [hinf] at hw
    · simp at hw
    rcases hicfg : env.ingressConfig with _ | cfg <;> rw [hicfg] at hw
    · simp at hw
    dsimp only at hw
    by_cases hdok :
        (enforceEffectiveIngressDomain env.domainEnv env.now ic cfg).ok = true
    · rw [if_pos hdok] at hw
      by_cases hset2 : IsStatusDomainSet
          (enforceEffectiveIngressDomain env.domainEnv env.now ic cfg).icAfter = true
      · rw [if_pos hset2] at hw
        have heps := enforceDomain_icAfter_eps env.domainEnv env.now ic cfg
        have hsome : (enforceEffectiveIngressDomain env.domainEnv env.now ic
            cfg).icAfter.status.endpointPublishingStrategy.isSome := by
          rw [heps]; exact hs
        rw [enforceStrategy_noop env.strategyEnv _ infra hsome] at hw
        dsimp only at hw
        rw [if_pos rfl] at hw
        cases hdt : (enforceEffectiveIngressDomain env.domainEnv env.now ic
            cfg).icAfter.deletionTimestamp with
        | some t =>
            rw [hdt] at hw
            dsimp only at hw
            simp at hw
            rcases hw with hw | hw
            · exact enforceDomain_statusWrite_eps env.domainEnv env.now ic cfg w hw
            · have hst := ensureIngressDeleted_write_status env.deleteEnv _ w hw
              rw [hst]
              exact heps
        | none =>
            rw [hdt] at hw
            dsimp only at hw
            split at hw
            all_goals simp at hw
            all_goals rcases hw with hw | hw
            all_goals first
            | exact enforceDomain_statusWrite_eps env.domainEnv env.now ic cfg w hw
            | (have hst := enforceIngressFinalizer_write_status env.finalizerEnv _ w hw
               rw [hst]
               exact heps)
      · rw [if_neg hset2] at hw
        simp at hw
        exact enforceDomain_statusWrite_eps env.domainEnv env.now ic cfg w hw
    · rw [if_neg hdok] at hw
      simp at hw
      exact enforceDomain_statusWrite_eps env.domainEnv env.now ic cfg w hw

theorem writeOnce_enforcers_noop_witness :
    (enforceEffectiveIngressDomain domainEnvOk 5 icPublished cfgExample =
      { ok := true, statusWrite := none, icAfter := icPublished }) ∧
    (enforceEffectiveEndpointPublishingStrategy strategyEnvOk icPublished infraAWS =
      { ok := true, statusWrite := none, icAfter := icPublished }) ∧
    (icDomOnlyEps ∈ (Reconcile (envOk (GetPrimaryRes.found icDomOnly))).writes ∧
      icDomOnlyEps.status.domain = icDomOnly.status.domain) ∧
    (icEpsOnlyDom ∈ (Reconcile (envOk (GetPrimaryRes.found icEpsOnly))).writes ∧
      icEpsOnlyDom.status.endpointPublishingStrategy =
        icEpsOnly.status.endpointPublishingStrategy) :=
  ⟨writeOnce_enforcers_noop.1 domainEnvOk 5 icPublished cfgExample (by decide),
    writeOnce_enforcers_noop.2.1 strategyEnvOk icPublished infraAWS (by decide),
    ⟨by decide,
      writeOnce_enforcers_noop.2.2.1 (envOk (GetPrimaryRes.found icDomOnly))
        icDomOnly rfl (by decide) icDomOnlyEps (by decide)⟩,
    ⟨by decide,
      writeOnce_enforcers_noop.2.2.2 (envOk (GetPrimaryRes.found icEpsOnly))
        icEpsOnly rfl (by decide) icEpsOnlyDom (by decide)⟩⟩

/-- C5: with the primary resource found and all three cluster configs
fetched, enforceEffectiveEndpointPublishingStrategy is invoked exactly when
enforceEffectiveIngressDomain returned success and the in-memory primary
resource's Status.Domain is non-empty afterward; in particular a pass in
which the uniqueness check reported a conflict does not reach the strategy
enforcer. -/
theorem strategy_enforcer_gating :
    (∀ (env : ReconcileEnv) (ic : IngressController) (infra : Infrastructure)
        (cfg : IngressConfig) (u : Unit),
      env.getPrimary = GetPrimaryRes.found ic →
      env.dnsConfig = some u →
      env.infraConfig = some infra →
      env.ingressConfig = some cfg →
      (Step.enforceStrategy ∈ (Reconcile env).steps ↔
        (enforceEffectiveIngressDomain env.domainEnv env.now ic cfg).ok = true ∧
        IsStatusDomainSet
          (enforceEffectiveIngressDomain env.domainEnv env.now ic cfg).icAfter =
            true)) ∧
    (∀ (env : ReconcileEnv) (ic : IngressController) (infra : Infrastructure)
        (cfg : IngressConfig) (u : Unit),
      env.getPrimary = GetPrimaryRes.found ic →
      env.dnsConfig = some u →
      env.infraConfig = some infra →
      env.ingressConfig = some cfg →
      ic.status.domain = "" →
      isDomainUnique env.domainEnv.listResult
        (if 0 < ic.spec.domain.length then ic.spec.domain else cfg.specDomain) =
          some false →
      Step.enforceStrategy ∉ (Reconcile env).steps) := by
  have main : ∀ (env : ReconcileEnv) (ic : IngressController)
      (infra : Infrastructure) (cfg : IngressConfig) (u : Unit),
      env.getPrimary = GetPrimaryRes.found ic →
      env.dnsConfig = some u →
      env.infraConfig = some infra →
      env.ingressConfig = some cfg →
      (Step.enforceStrategy ∈ (Reconcile env).steps ↔
        (enforceEffectiveIngressDomain env.domainEnv env.now ic cfg).ok = true ∧
        IsStatusDomainSet
          (enforceEffectiveIngressDomain env.domainEnv env.now ic cfg).icAfter =
            true) := by
    intro env ic infra cfg u hgp hdns hinf hicfg
    unfold Reconcile reconcileCore
    rw [hgp, hdns, hinf, hicfg]
    dsimp only
    by_cases hok :
        (enforceEffectiveIngressDomain env.domainEnv env.now ic cfg).ok = true
    · rw [if_pos hok]
      by_cases hset : IsStatusDomainSet
          (enforceEffectiveIngressDomain env.domainEnv env.now ic cfg).icAfter = true
      · rw [if_pos hset]
        refine Iff.intro (fun _ => ⟨hok, hset⟩) (fun _ => ?_)
        repeat' split
        all_goals simp
      · rw [if_neg hset]
        simp only [hset, and_false, iff_false]
        simp
    · rw [if_neg hok]
      simp only [hok, false_and, iff_false]
      simp
  refine ⟨main, ?_⟩
  intro env ic infra cfg u hgp hdns hinf hicfg h0 hc hmem
  have hiff := (main env ic infra cfg u hgp hdns hinf hicfg).mp hmem
  have hdom := enforceDomain_conflict_icAfter env.domainEnv env.now ic cfg h0 hc
  have hset := hiff.2
  rw [IsStatusDomainSet, hdom] at hset
  simp at hset

theorem strategy_enforcer_gating_witness :
    icConflicting.status.domain = "" ∧
    isDomainUnique envConflict.domainEnv.listResult
      (if 0 < icConflicting.spec.domain.length then icConflicting.spec.domain
        else cfgExample.specDomain) = some false ∧
    Step.enforceStrategy ∉ (Reconcile envConflict).steps :=
  ⟨by decide, by decide,
    strategy_enforcer_gating.2 envConflict icConflicting infraAWS cfgExample ()
      rfl rfl rfl rfl (by decide) (by decide)⟩

/-- C8: the three cluster config fetches are all attempted when the primary
resource is found, each failure is appended to the error set, and when any
one fails no enforcement step runs, status sync still runs, and the
combined error is non-nil. -/
theorem cluster_config_gating (env : ReconcileEnv) (ic : IngressController)
    (hgp : env.getPrimary = GetPrimaryRes.found ic) :
    (Step.getDNS ∈ (Reconcile env).steps ∧
      Step.getInfra ∈ (Reconcile env).steps ∧
      Step.getIngressConfig ∈ (Reconcile env).steps) ∧
    (env.dnsConfig = none → RErr.getDNS ∈ (Reconcile env).errs) ∧
    (env.infraConfig = none → RErr.getInfra ∈ (Reconcile env).errs) ∧
    (env.ingressConfig = none → RErr.getIngressConfig ∈ (Reconcile env).errs) ∧
    ((env.dnsConfig = none ∨ env.infraConfig = none ∨
        env.ingressConfig = none) →
      (Reconcile env).steps =
        [Step.getPrimary, Step.getDNS, Step.getInfra, Step.getIngressConfig,
          Step.syncOperatorStatus] ∧
      (Reconcile env).errs ≠ []) := by
  unfold Reconcile reconcileCore
  rw [hgp]
  dsimp only
  rcases hdns : env.dnsConfig with _ | u <;>
    rcases hinf : env.infraConfig with _ | infra <;>
    rcases hicfg : env.ingressConfig with _ | cfg <;>
    dsimp only <;>
    repeat' split
  all_goals simp_all

theorem cluster_config_gating_witness :
    envDnsFail.dnsConfig = none ∧
    RErr.getDNS ∈ (Reconcile envDnsFail).errs ∧
    (Reconcile envDnsFail).steps =
      [Step.getPrimary, Step.getDNS, Step.getInfra, Step.getIngressConfig,
        Step.syncOperatorStatus] ∧
    (Reconcile envDnsFail).errs ≠ [] := by
  have h := cluster_config_gating envDnsFail icBlank rfl
  exact ⟨rfl, h.2.1 rfl, (h.2.2.2.2 (Or.inl rfl)).1, (h.2.2.2.2 (Or.inl rfl)).2⟩

/-- C9 counterexample: in a pass where the infrastructure config fetch fails,
the process-wide operator status sync still runs but the primary resource's
own status sync does not, contradicting the claim that both run in every
pass regardless of upstream failures. -/
theorem primary_status_sync_not_always :
    Step.syncOperatorStatus ∈ (Reconcile envInfraFail).steps ∧
    Step.syncIngressControllerStatus ∉ (Reconcile envInfraFail).steps := by
  decide

lemma ensureIngressController_syncStep (env : EnsureICEnv) :
    Step.syncIngressControllerStatus ∈ (ensureIngressController env).2 ↔
      env.deploymentOk = true := by
  unfold ensureIngressController
  rcases env with ⟨d, lb, dns, isvc, m, ev, sy⟩
  cases d <;> dsimp only <;> repeat' split
  all_goals simp_all

/-- C9 amended: the process-wide operator status sync runs at the end of
every Reconcile pass regardless of upstream outcomes; the primary
resource's own status sync runs exactly when the dependent-resource ensure
path is reached and the router deployment ensure succeeds. -/
theorem status_sync_policy (env : ReconcileEnv) :
    Step.syncOperatorStatus ∈ (Reconcile env).steps ∧
    (Step.syncIngressControllerStatus ∈ (Reconcile env).steps ↔
      Step.ensureIngressController ∈ (Reconcile env).steps ∧
      env.ensureICEnv.deploymentOk = true) := by
  unfold Reconcile reconcileCore
  cases hgp : env.getPrimary <;> dsimp only
  case notFound => simp
  case otherErr => simp
  case found ic =>
    rcases hdns : env.dnsConfig with _ | u <;>
      rcases hinf : env.infraConfig with _ | infra <;>
      rcases hicfg : env.ingressConfig with _ | cfg <;>
      dsimp only <;>
      repeat' split
    all_goals simp [ensureIngressController_syncStep]

end IngressCtl
